import Mathlib

/-!
Verification of the instruction-execution core of the `iroha` repository
(`src/isi.rs`, `src/asset.rs`) against its natural-language specification.

Rust values are embedded shallowly:
* a Rust `String` is its list of UTF-8 bytes (`RStr`);
* machine integers (`u8`, `u128`) are `Nat` with explicit bounds where
  overflow could matter;
* panicking code (`unwrap`, `expect`) is modelled with `Option`: `none`
  is a panic, `some` a normal return;
* the SCALE codec (`parity-scale-codec` crate, external to the repo) is
  modelled from the SCALE format: compact length prefixes, little-endian
  fixed-width integers, one-byte enum tags in declaration order.
-/

namespace Iroha

/-- A Rust `String`, embedded as its list of UTF-8 bytes. -/
abbrev RStr := List Nat

/-- UTF-8 bytes of one character (standard 1-4 byte encoding). -/
def utf8Char (c : Char) : List Nat :=
  let n := c.toNat
  if n < 0x80 then [n]
  else if n < 0x800 then [0xC0 + n / 64, 0x80 + n % 64]
  else if n < 0x10000 then [0xE0 + n / 4096, 0x80 + n / 64 % 64, 0x80 + n % 64]
  else [0xF0 + n / 262144, 0x80 + n / 4096 % 64, 0x80 + n / 64 % 64, 0x80 + n % 64]

/-- Embed a Lean string literal as a Rust string (its UTF-8 bytes). -/
def rstr (s : String) : RStr := s.data.flatMap utf8Char

/-- Little-endian bytes of `n`, exactly `k` bytes (SCALE fixed-width integers). -/
def toLE : Nat → Nat → List Nat
  | 0, _ => []
  | k + 1, n => n % 256 :: toLE k (n / 256)

/-- Read `k` little-endian bytes; returns the value and the remaining input. -/
def fromLE : Nat → List Nat → Option (Nat × List Nat)
  | 0, bs => some (0, bs)
  | _ + 1, [] => none
  | k + 1, b :: bs => (fromLE k bs).map (fun vr => (b + 256 * vr.1, vr.2))

theorem fromLE_toLE (k : Nat) (n : Nat) (rest : List Nat) (h : n < 256 ^ k) :
    fromLE k (toLE k n ++ rest) = some (n, rest) := by
  induction k generalizing n with
  | zero =>
    interval_cases n
    simp [toLE, fromLE]
  | succ k ih =>
    have hlt : n / 256 < 256 ^ k := by
      rw [Nat.div_lt_iff_lt_mul (by norm_num)]
      calc n < 256 ^ (k + 1) := h
        _ = 256 ^ k * 256 := by ring
    have ihh := ih (n / 256) hlt
    have hn : n % 256 + 256 * (n / 256) = n := by omega
    simp only [toLE, fromLE, List.cons_append]
    rw [show (toLE k (n / 256)).append rest = toLE k (n / 256) ++ rest from rfl, ihh]
    simp only [Option.map_some', hn]

/-- SCALE compact encoding of a `u32` value (lengths of collections). -/
def compactEncode (n : Nat) : List Nat :=
  if n < 64 then [4 * n]
  else if n < 2 ^ 14 then toLE 2 (4 * n + 1)
  else if n < 2 ^ 30 then toLE 4 (4 * n + 2)
  else 3 :: toLE 4 n

/-- SCALE compact decoding of a `u32` value; rejects non-canonical forms. -/
def compactDecode (bs : List Nat) : Option (Nat × List Nat) :=
  match bs with
  | [] => none
  | b0 :: rest =>
    if b0 % 4 = 0 then some (b0 / 4, rest)
    else if b0 % 4 = 1 then
      match rest with
      | [] => none
      | b1 :: r2 =>
        let x := (b0 + b1 * 256) / 4
        if 64 ≤ x then some (x, r2) else none
    else if b0 % 4 = 2 then
      (fromLE 3 rest).bind (fun vr =>
        if 2 ^ 14 ≤ (b0 + vr.1 * 256) / 4 then some ((b0 + vr.1 * 256) / 4, vr.2) else none)
    else
      if b0 / 4 = 0 then
        (fromLE 4 rest).bind (fun vr => if 2 ^ 30 ≤ vr.1 then some (vr.1, vr.2) else none)
      else none

theorem compactDecode_compactEncode (n : Nat) (rest : List Nat) (h : n < 2 ^ 32) :
    compactDecode (compactEncode n ++ rest) = some (n, rest) := by
  by_cases h1 : n < 64
  · simp only [compactEncode, if_pos h1, List.cons_append, List.nil_append, compactDecode]
    rw [if_pos (by omega)]
    congr 2
    omega
  · by_cases h2 : n < 2 ^ 14
    · simp only [compactEncode, if_neg h1, if_pos h2, toLE, List.cons_append, List.nil_append,
        compactDecode]
      rw [if_neg (by omega), if_pos (by omega)]
      have hb1 : (4 * n + 1) / 256 % 256 = (4 * n + 1) / 256 := by
        have : (4 * n + 1) / 256 < 256 := by omega
        omega
      rw [if_pos (by omega)]
      · congr 2
        omega
    · by_cases h3 : n < 2 ^ 30
      · have hsplit : toLE 4 (4 * n + 2) = (4 * n + 2) % 256 :: toLE 3 ((4 * n + 2) / 256) := rfl
        have hb0 : (4 * n + 2) % 256 % 4 = 2 := by omega
        have hle : fromLE 3 (toLE 3 ((4 * n + 2) / 256) ++ rest) =
            some ((4 * n + 2) / 256, rest) := fromLE_toLE 3 _ rest (by omega)
        have hx : ((4 * n + 2) % 256 + (4 * n + 2) / 256 * 256) / 4 = n := by omega
        simp only [compactEncode, if_neg h1, if_neg h2, if_pos h3, hsplit, List.cons_append,
          compactDecode, hb0, hle, Option.some_bind, hx]
        norm_num
        exact fun hc => absurd hc (by omega)
      · have hb0 : (3 : Nat) % 4 = 3 := by norm_num
        simp only [compactEncode, if_neg h1, if_neg h2, if_neg h3, List.cons_append,
          compactDecode, hb0, fromLE_toLE 4 n rest (by omega), Option.some_bind]
        norm_num
        exact fun hc => absurd hc (by omega)

/-- SCALE encoding of a Rust `String`: compact length then the raw bytes.
`parity-scale-codec` refuses (panics, modelled `none`) to encode a collection
longer than `u32::MAX`. -/
def encodeStr (s : RStr) : Option (List Nat) :=
  if s.length < 2 ^ 32 then some (compactEncode s.length ++ s) else none

/-- SCALE decoding of a Rust `String`: compact length then that many bytes. -/
def decodeStr (bs : List Nat) : Option (RStr × List Nat) :=
  (compactDecode bs).bind (fun nr =>
    if nr.1 ≤ nr.2.length then some (nr.2.take nr.1, nr.2.drop nr.1) else none)

theorem decodeStr_encodeStr (s : RStr) (es rest : List Nat) (h : encodeStr s = some es) :
    decodeStr (es ++ rest) = some (s, rest) := by
  simp only [encodeStr] at h
  split at h
  · rename_i hlen
    cases h
    simp only [decodeStr, List.append_assoc, compactDecode_compactEncode s.length (s ++ rest) hlen,
      Option.some_bind]
    rw [if_pos (by simp)]
    simp [List.take_left, List.drop_left]
  · cases h

/-- `Id` from `src/isi.rs`: a pair of entity name and domain name
(a Rust tuple struct of two `String`s). -/
structure Id where
  entityName : RStr
  domainName : RStr
deriving DecidableEq, Repr

def Id.new (entityName domainName : RStr) : Id := ⟨entityName, domainName⟩

/-- SCALE encoding of `Id`: the two strings in field order. -/
def encodeId (i : Id) : Option (List Nat) :=
  (encodeStr i.entityName).bind (fun e1 => (encodeStr i.domainName).map (fun e2 => e1 ++ e2))

def decodeId (bs : List Nat) : Option (Id × List Nat) :=
  (decodeStr bs).bind (fun sr =>
    (decodeStr sr.2).map (fun dr => (⟨sr.1, dr.1⟩, dr.2)))

theorem decodeId_encodeId (i : Id) (es rest : List Nat) (h : encodeId i = some es) :
    decodeId (es ++ rest) = some (i, rest) := by
  simp only [encodeId, Option.bind_eq_some, Option.map_eq_some'] at h
  obtain ⟨e1, h1, e2, h2, rfl⟩ := h
  simp only [decodeId, List.append_assoc, decodeStr_encodeStr _ _ _ h1, Option.some_bind,
    decodeStr_encodeStr _ _ _ h2, Option.map_some']

/-- SCALE encoding of a `u128`: 16 little-endian bytes. -/
def encodeU128 (n : Nat) : List Nat := toLE 16 n

def decodeU128 (bs : List Nat) : Option (Nat × List Nat) := fromLE 16 bs

/-- SCALE encoding of a `u8`: one byte. -/
def encodeU8 (n : Nat) : List Nat := toLE 1 n

def decodeU8 (bs : List Nat) : Option (Nat × List Nat) := fromLE 1 bs

/-- `AddAssetQuantity` from `src/asset.rs` (fields in declaration order;
`amount` is a `u128`, embedded as a `Nat` below `2 ^ 128`). -/
structure AddAssetQuantity where
  asset_id : Id
  account_id : Id
  amount : Nat
deriving DecidableEq, Repr

/-- `amount` fits in a `u128` (enforced by Rust's types). -/
def AddAssetQuantity.wf (x : AddAssetQuantity) : Prop := x.amount < 2 ^ 128

/-- `CreateAsset` from `src/asset.rs` (`decimals` is a `u8`). -/
structure CreateAsset where
  asset_name : RStr
  domain_id : RStr
  decimals : Nat
deriving DecidableEq, Repr

/-- `decimals` fits in a `u8` (enforced by Rust's types). -/
def CreateAsset.wf (x : CreateAsset) : Prop := x.decimals < 2 ^ 8

/-- `TransferAsset` from `src/asset.rs` (fields in declaration order:
source, destination, asset, description, amount). -/
structure TransferAsset where
  source_account_id : Id
  destination_account_id : Id
  asset_id : Id
  description : RStr
  amount : Nat
deriving DecidableEq, Repr

/-- `amount` fits in a `u128` (enforced by Rust's types). -/
def TransferAsset.wf (x : TransferAsset) : Prop := x.amount < 2 ^ 128

/-- Modelled from the spec: `account.rs` is not under `src/`; the spec names
the `AddSignatory` variant but gives no field layout, so the payload is
modelled as the account it concerns. -/
structure AddSignatory where
  account_id : Id
deriving DecidableEq, Repr

/-- Modelled from the spec: `account.rs` is not under `src/`; the `AppendRole`
payload is modelled as the account it concerns. -/
structure AppendRole where
  account_id : Id
deriving DecidableEq, Repr

/-- Modelled from the spec: `account.rs` is not under `src/`; an Account is
identified by an `Identifier`, so the payload carries that `Id`. -/
structure CreateAccount where
  account_id : Id
deriving DecidableEq, Repr

/-- Modelled from the spec: `account.rs` is not under `src/`; the `CreateRole`
payload is modelled as the role name. -/
structure CreateRole where
  role_name : RStr
deriving DecidableEq, Repr

/-- Modelled from the spec: `domain.rs` is not under `src/`; a Domain is a
named namespace, so the payload carries its name. -/
structure CreateDomain where
  domain_name : RStr
deriving DecidableEq, Repr

/-- Modelled from the spec: `peer.rs` is not under `src/`; a Peer is
identified by a network address. -/
structure AddPeer where
  address : RStr
deriving DecidableEq, Repr

/-- The `Contract` union from `src/isi.rs`, variants in declaration order
(this order fixes the SCALE tag of each variant). -/
inductive Contract where
  | AddSignatory (p : AddSignatory)
  | AppendRole (p : AppendRole)
  | CreateAccount (p : CreateAccount)
  | CreateRole (p : CreateRole)
  | AddAssetQuantity (p : AddAssetQuantity)
  | TransferAsset (p : TransferAsset)
  | CreateAsset (p : CreateAsset)
  | CreateDomain (p : CreateDomain)
  | AddPeer (p : AddPeer)
deriving DecidableEq, Repr

/-- SCALE encoding of `AddAssetQuantity` (the `From<&AddAssetQuantity> for
Vec<u8>` impl): fields in declaration order. -/
def AddAssetQuantity.toBytes (x : AddAssetQuantity) : Option (List Nat) :=
  (encodeId x.asset_id).bind (fun e1 =>
    (encodeId x.account_id).map (fun e2 => e1 ++ e2 ++ encodeU128 x.amount))

/-- SCALE decoding of `AddAssetQuantity`; `none` is a decode failure. -/
def AddAssetQuantity.decodeBytes (bs : List Nat) : Option (AddAssetQuantity × List Nat) :=
  (decodeId bs).bind (fun r1 =>
    (decodeId r1.2).bind (fun r2 =>
      (decodeU128 r2.2).map (fun r3 => (⟨r1.1, r2.1, r3.1⟩, r3.2))))

/-- The `From<Vec<u8>> for AddAssetQuantity` impl: decode and `expect`
(panic, modelled `none`) on failure; trailing bytes are ignored. -/
def AddAssetQuantity.fromBytes (bs : List Nat) : Option AddAssetQuantity :=
  (AddAssetQuantity.decodeBytes bs).map (fun r => r.1)

/-- SCALE encoding of `CreateAsset`: fields in declaration order. -/
def CreateAsset.toBytes (x : CreateAsset) : Option (List Nat) :=
  (encodeStr x.asset_name).bind (fun e1 =>
    (encodeStr x.domain_id).map (fun e2 => e1 ++ e2 ++ encodeU8 x.decimals))

def CreateAsset.decodeBytes (bs : List Nat) : Option (CreateAsset × List Nat) :=
  (decodeStr bs).bind (fun r1 =>
    (decodeStr r1.2).bind (fun r2 =>
      (decodeU8 r2.2).map (fun r3 => (⟨r1.1, r2.1, r3.1⟩, r3.2))))

/-- The `From<Vec<u8>> for CreateAsset` impl (panics on failure). -/
def CreateAsset.fromBytes (bs : List Nat) : Option CreateAsset :=
  (CreateAsset.decodeBytes bs).map (fun r => r.1)

/-- SCALE encoding of `TransferAsset`: fields in declaration order. -/
def TransferAsset.toBytes (x : TransferAsset) : Option (List Nat) :=
  (encodeId x.source_account_id).bind (fun e1 =>
    (encodeId x.destination_account_id).bind (fun e2 =>
      (encodeId x.asset_id).bind (fun e3 =>
        (encodeStr x.description).map (fun e4 =>
          e1 ++ e2 ++ e3 ++ e4 ++ encodeU128 x.amount))))

def TransferAsset.decodeBytes (bs : List Nat) : Option (TransferAsset × List Nat) :=
  (decodeId bs).bind (fun r1 =>
    (decodeId r1.2).bind (fun r2 =>
      (decodeId r2.2).bind (fun r3 =>
        (decodeStr r3.2).bind (fun r4 =>
          (decodeU128 r4.2).map (fun r5 => (⟨r1.1, r2.1, r3.1, r4.1, r5.1⟩, r5.2))))))

/-- The `From<Vec<u8>> for TransferAsset` impl (panics on failure). -/
def TransferAsset.fromBytes (bs : List Nat) : Option TransferAsset :=
  (TransferAsset.decodeBytes bs).map (fun r => r.1)

/-- SCALE encodings of the spec-modelled payloads: fields in order. -/
def AddSignatory.toBytes (x : AddSignatory) : Option (List Nat) := encodeId x.account_id

def AddSignatory.decodeBytes (bs : List Nat) : Option (AddSignatory × List Nat) :=
  (decodeId bs).map (fun r => (⟨r.1⟩, r.2))

def AppendRole.toBytes (x : AppendRole) : Option (List Nat) := encodeId x.account_id

def AppendRole.decodeBytes (bs : List Nat) : Option (AppendRole × List Nat) :=
  (decodeId bs).map (fun r => (⟨r.1⟩, r.2))

def CreateAccount.toBytes (x : CreateAccount) : Option (List Nat) := encodeId x.account_id

def CreateAccount.decodeBytes (bs : List Nat) : Option (CreateAccount × List Nat) :=
  (decodeId bs).map (fun r => (⟨r.1⟩, r.2))

def CreateRole.toBytes (x : CreateRole) : Option (List Nat) := encodeStr x.role_name

def CreateRole.decodeBytes (bs : List Nat) : Option (CreateRole × List Nat) :=
  (decodeStr bs).map (fun r => (⟨r.1⟩, r.2))

def CreateDomain.toBytes (x : CreateDomain) : Option (List Nat) := encodeStr x.domain_name

def CreateDomain.decodeBytes (bs : List Nat) : Option (CreateDomain × List Nat) :=
  (decodeStr bs).map (fun r => (⟨r.1⟩, r.2))

def AddPeer.toBytes (x : AddPeer) : Option (List Nat) := encodeStr x.address

def AddPeer.decodeBytes (bs : List Nat) : Option (AddPeer × List Nat) :=
  (decodeStr bs).map (fun r => (⟨r.1⟩, r.2))

/-- SCALE encoding of the `Contract` union (the `From<&Contract> for Vec<u8>`
impl): a one-byte tag in declaration order, then the payload. -/
def Contract.toBytes : Contract → Option (List Nat)
  | .AddSignatory p => (p.toBytes).map (fun e => 0 :: e)
  | .AppendRole p => (p.toBytes).map (fun e => 1 :: e)
  | .CreateAccount p => (p.toBytes).map (fun e => 2 :: e)
  | .CreateRole p => (p.toBytes).map (fun e => 3 :: e)
  | .AddAssetQuantity p => (p.toBytes).map (fun e => 4 :: e)
  | .TransferAsset p => (p.toBytes).map (fun e => 5 :: e)
  | .CreateAsset p => (p.toBytes).map (fun e => 6 :: e)
  | .CreateDomain p => (p.toBytes).map (fun e => 7 :: e)
  | .AddPeer p => (p.toBytes).map (fun e => 8 :: e)

/-- SCALE decoding of the `Contract` union: dispatch on the tag byte; an
unknown tag is a decode failure. -/
def Contract.decodeBytes (bs : List Nat) : Option (Contract × List Nat) :=
  match bs with
  | [] => none
  | 0 :: r => (AddSignatory.decodeBytes r).map (fun p => (.AddSignatory p.1, p.2))
  | 1 :: r => (AppendRole.decodeBytes r).map (fun p => (.AppendRole p.1, p.2))
  | 2 :: r => (CreateAccount.decodeBytes r).map (fun p => (.CreateAccount p.1, p.2))
  | 3 :: r => (CreateRole.decodeBytes r).map (fun p => (.CreateRole p.1, p.2))
  | 4 :: r => (AddAssetQuantity.decodeBytes r).map (fun p => (.AddAssetQuantity p.1, p.2))
  | 5 :: r => (TransferAsset.decodeBytes r).map (fun p => (.TransferAsset p.1, p.2))
  | 6 :: r => (CreateAsset.decodeBytes r).map (fun p => (.CreateAsset p.1, p.2))
  | 7 :: r => (CreateDomain.decodeBytes r).map (fun p => (.CreateDomain p.1, p.2))
  | 8 :: r => (AddPeer.decodeBytes r).map (fun p => (.AddPeer p.1, p.2))
  | _ :: _ => none

/-- The `From<Vec<u8>> for Contract` impl: decode and `expect` (panic,
modelled `none`) on failure; trailing bytes are ignored. -/
def Contract.fromBytes (bs : List Nat) : Option Contract :=
  (Contract.decodeBytes bs).map (fun r => r.1)

/-- Payload well-formedness for a whole `Contract` value: every numeric field
fits its Rust machine type. -/
def Contract.wf : Contract → Prop
  | .AddAssetQuantity p => p.wf
  | .TransferAsset p => p.wf
  | .CreateAsset p => p.wf
  | _ => True

theorem decodeU128_encodeU128 (n : Nat) (rest : List Nat) (h : n < 2 ^ 128) :
    decodeU128 (encodeU128 n ++ rest) = some (n, rest) := by
  have h256 : (256 : Nat) ^ 16 = 2 ^ 128 := by norm_num
  exact fromLE_toLE 16 n rest (by omega)

theorem decodeU8_encodeU8 (n : Nat) (rest : List Nat) (h : n < 2 ^ 8) :
    decodeU8 (encodeU8 n ++ rest) = some (n, rest) := by
  have h256 : (256 : Nat) ^ 1 = 2 ^ 8 := by norm_num
  exact fromLE_toLE 1 n rest (by omega)

theorem AddAssetQuantity.decode_encode_AddAssetQuantity (x : AddAssetQuantity) (bs rest : List Nat)
    (hwf : x.wf) (h : x.toBytes = some bs) :
    AddAssetQuantity.decodeBytes (bs ++ rest) = some (x, rest) := by
  simp only [AddAssetQuantity.toBytes, Option.bind_eq_some, Option.map_eq_some'] at h
  obtain ⟨e1, h1, e2, h2, rfl⟩ := h
  simp only [AddAssetQuantity.decodeBytes, List.append_assoc, decodeId_encodeId _ _ _ h1,
    Option.some_bind, decodeId_encodeId _ _ _ h2,
    decodeU128_encodeU128 x.amount rest hwf, Option.map_some']

theorem CreateAsset.decode_encode_CreateAsset (x : CreateAsset) (bs rest : List Nat)
    (hwf : x.wf) (h : x.toBytes = some bs) :
    CreateAsset.decodeBytes (bs ++ rest) = some (x, rest) := by
  simp only [CreateAsset.toBytes, Option.bind_eq_some, Option.map_eq_some'] at h
  obtain ⟨e1, h1, e2, h2, rfl⟩ := h
  simp only [CreateAsset.decodeBytes, List.append_assoc, decodeStr_encodeStr _ _ _ h1,
    Option.some_bind, decodeStr_encodeStr _ _ _ h2,
    decodeU8_encodeU8 x.decimals rest hwf, Option.map_some']

theorem TransferAsset.decode_encode_TransferAsset (x : TransferAsset) (bs rest : List Nat)
    (hwf : x.wf) (h : x.toBytes = some bs) :
    TransferAsset.decodeBytes (bs ++ rest) = some (x, rest) := by
  simp only [TransferAsset.toBytes, Option.bind_eq_some, Option.map_eq_some'] at h
  obtain ⟨e1, h1, e2, h2, e3, h3, e4, h4, rfl⟩ := h
  simp only [TransferAsset.decodeBytes, List.append_assoc, decodeId_encodeId _ _ _ h1,
    Option.some_bind, decodeId_encodeId _ _ _ h2, decodeId_encodeId _ _ _ h3,
    decodeStr_encodeStr _ _ _ h4, decodeU128_encodeU128 x.amount rest hwf, Option.map_some']

theorem AddSignatory.decode_encode_AddSignatory (x : AddSignatory) (bs rest : List Nat)
    (h : x.toBytes = some bs) :
    AddSignatory.decodeBytes (bs ++ rest) = some (x, rest) := by
  simp only [AddSignatory.decodeBytes, decodeId_encodeId _ _ _ h, Option.map_some']

theorem AppendRole.decode_encode_AppendRole (x : AppendRole) (bs rest : List Nat)
    (h : x.toBytes = some bs) :
    AppendRole.decodeBytes (bs ++ rest) = some (x, rest) := by
  simp only [AppendRole.decodeBytes, decodeId_encodeId _ _ _ h, Option.map_some']

theorem CreateAccount.decode_encode_CreateAccount (x : CreateAccount) (bs rest : List Nat)
    (h : x.toBytes = some bs) :
    CreateAccount.decodeBytes (bs ++ rest) = some (x, rest) := by
  simp only [CreateAccount.decodeBytes, decodeId_encodeId _ _ _ h, Option.map_some']

theorem CreateRole.decode_encode_CreateRole (x : CreateRole) (bs rest : List Nat)
    (h : x.toBytes = some bs) :
    CreateRole.decodeBytes (bs ++ rest) = some (x, rest) := by
  simp only [CreateRole.decodeBytes, decodeStr_encodeStr _ _ _ h, Option.map_some']

theorem CreateDomain.decode_encode_CreateDomain (x : CreateDomain) (bs rest : List Nat)
    (h : x.toBytes = some bs) :
    CreateDomain.decodeBytes (bs ++ rest) = some (x, rest) := by
  simp only [CreateDomain.decodeBytes, decodeStr_encodeStr _ _ _ h, Option.map_some']

theorem AddPeer.decode_encode_AddPeer (x : AddPeer) (bs rest : List Nat)
    (h : x.toBytes = some bs) :
    AddPeer.decodeBytes (bs ++ rest) = some (x, rest) := by
  simp only [AddPeer.decodeBytes, decodeStr_encodeStr _ _ _ h, Option.map_some']

theorem Contract.decode_encode_Contract (c : Contract) (bs rest : List Nat)
    (hwf : c.wf) (h : c.toBytes = some bs) :
    Contract.decodeBytes (bs ++ rest) = some (c, rest) := by
  cases c <;>
    simp only [Contract.toBytes, Option.map_eq_some'] at h <;>
    obtain ⟨e, he, rfl⟩ := h <;>
    simp only [Contract.decodeBytes, List.cons_append]
  · rw [AddSignatory.decode_encode_AddSignatory _ _ _ he]
    rfl
  · rw [AppendRole.decode_encode_AppendRole _ _ _ he]
    rfl
  · rw [CreateAccount.decode_encode_CreateAccount _ _ _ he]
    rfl
  · rw [CreateRole.decode_encode_CreateRole _ _ _ he]
    rfl
  · rw [AddAssetQuantity.decode_encode_AddAssetQuantity _ _ _ hwf he]
    rfl
  · rw [TransferAsset.decode_encode_TransferAsset _ _ _ hwf he]
    rfl
  · rw [CreateAsset.decode_encode_CreateAsset _ _ _ hwf he]
    rfl
  · rw [CreateDomain.decode_encode_CreateDomain _ _ _ he]
    rfl
  · rw [AddPeer.decode_encode_AddPeer _ _ _ he]
    rfl

/-! ## World State

`wsv.rs`, `account.rs`, `domain.rs` are not under `src/`; the entity model is
modelled from the spec: the World State is a mapping from Domain identifier to
Domain; a Domain owns Accounts; an Account owns a mapping from Asset `Id` to
`Asset`.  Rust `HashMap`s are embedded as association lists whose keys are
unique. -/

/-- First value stored under key `k`, as Rust's `HashMap::get`. -/
def assocLookup {α β : Type} [DecidableEq α] (l : List (α × β)) (k : α) : Option β :=
  match l with
  | [] => none
  | (k', v) :: t => if k' = k then some v else assocLookup t k

/-- Rewrite the value stored under key `k` in place. -/
def assocMapAt {α β : Type} [DecidableEq α] (l : List (α × β)) (k : α) (f : β → β) :
    List (α × β) :=
  l.map (fun p => if p.1 = k then (p.1, f p.2) else p)

/-- Rust's `HashMap::insert`: replace the value if the key is present,
otherwise add the binding. -/
def assocInsert {α β : Type} [DecidableEq α] (l : List (α × β)) (k : α) (v : β) :
    List (α × β) :=
  if (assocLookup l k).isSome then assocMapAt l k (fun _ => v) else l ++ [(k, v)]

/-- Rust's `HashMap::remove`: drop the binding of key `k`. -/
def assocRemove {α β : Type} [DecidableEq α] (l : List (α × β)) (k : α) : List (α × β) :=
  l.filter (fun p => p.1 ≠ k)

/-- No key occurs twice (the `HashMap` representation invariant). -/
def keysUnique {α β : Type} [DecidableEq α] : List (α × β) → Bool
  | [] => true
  | (k, _) :: t => !(t.any (fun p => p.1 = k)) && keysUnique t

/-- `Asset` from `src/asset.rs`: a lightweight handle carrying its `Id`. -/
structure Asset where
  id : Id
deriving DecidableEq, Repr

def Asset.new (id : Id) : Asset := ⟨id⟩

/-- Modelled from the spec: `account.rs` is not under `src/`; an Account is
identified by an `Id` and owns a mapping from Asset `Id` to `Asset`. -/
structure Account where
  id : Id
  assets : List (Id × Asset)
deriving DecidableEq, Repr

/-- Modelled from the spec: `domain.rs` is not under `src/`; a Domain is a
named namespace owning Accounts. -/
structure Domain where
  name : RStr
  accounts : List (Id × Account)
deriving DecidableEq, Repr

/-- Modelled from the spec: the World maps Domain identifiers to Domains. -/
structure World where
  domains : List (RStr × Domain)
deriving DecidableEq, Repr

/-- Modelled from the spec: `wsv.rs` is not under `src/`; the view owns the
single mutable `World`. -/
structure WorldStateView where
  world : World
deriving DecidableEq, Repr

/-- `world.account(id)`: look up the domain by the `Id`'s domain name, then
the account by the full `Id`. -/
def World.account (w : World) (id : Id) : Option Account :=
  (assocLookup w.domains id.domainName).bind (fun d => assocLookup d.accounts id)

/-- Apply `f` to the account stored under `id` (in-place mutation through
`world.account(id)` in the Rust code). -/
def World.updAccount (w : World) (id : Id) (f : Account → Account) : World :=
  ⟨assocMapAt w.domains id.domainName
    (fun d => { d with accounts := assocMapAt d.accounts id f })⟩

/-- Rust `Result<(), String>`. -/
inductive RResult where
  | ok
  | err (msg : RStr)
deriving DecidableEq, Repr

/-- `AddAssetQuantity::execute` from `src/asset.rs`: `unwrap` the account
lookup (panic, modelled `none`, when the account is absent), then insert
`Asset::new(asset_id)` under `asset_id`.  The `amount` field is never read. -/
def AddAssetQuantity.execute (i : AddAssetQuantity) (wsv : WorldStateView) :
    Option (RResult × WorldStateView) :=
  match wsv.world.account i.account_id with
  | none => none
  | some _ =>
    some (.ok, ⟨wsv.world.updAccount i.account_id
      (fun a => { a with assets := assocInsert a.assets i.asset_id (Asset.new i.asset_id) })⟩)

/-- `TransferAsset::execute` from `src/asset.rs`: `unwrap` the source account
(panic when absent), `unwrap` the removal of `asset_id` from its assets
(panic when the source does not hold it), then `unwrap` the destination
account in the already-mutated world and insert the removed asset there. -/
def TransferAsset.execute (i : TransferAsset) (wsv : WorldStateView) :
    Option (RResult × WorldStateView) :=
  match wsv.world.account i.source_account_id with
  | none => none
  | some src =>
    match assocLookup src.assets i.asset_id with
    | none => none
    | some asset =>
      let w1 := wsv.world.updAccount i.source_account_id
        (fun a => { a with assets := assocRemove a.assets i.asset_id })
      match w1.account i.destination_account_id with
      | none => none
      | some _ =>
        some (.ok, ⟨w1.updAccount i.destination_account_id
          (fun a => { a with assets := assocInsert a.assets i.asset_id asset })⟩)

/-- Modelled from the spec: `account.rs` is not under `src/`; `CreateAccount`
registers a fresh Account (empty asset mapping) under its domain, in the
panic-on-missing-entity style of this core. -/
def CreateAccount.execute (i : CreateAccount) (wsv : WorldStateView) :
    Option (RResult × WorldStateView) :=
  match assocLookup wsv.world.domains i.account_id.domainName with
  | none => none
  | some _ =>
    some (.ok, ⟨⟨assocMapAt wsv.world.domains i.account_id.domainName
      (fun d => { d with accounts := assocInsert d.accounts i.account_id ⟨i.account_id, []⟩ })⟩⟩)

/-- Modelled from the spec: `domain.rs` is not under `src/`; `CreateDomain`
registers a fresh, empty Domain under its name. -/
def CreateDomain.execute (i : CreateDomain) (wsv : WorldStateView) :
    Option (RResult × WorldStateView) :=
  some (.ok, ⟨⟨assocInsert wsv.world.domains i.domain_name ⟨i.domain_name, []⟩⟩⟩)

/-- The fixed message of `Contract::invoke`'s default arm in `src/isi.rs`. -/
def notSupportedMsg : RStr := rstr "Instruction is not supported yet."

/-- `Contract::invoke` from `src/isi.rs`: dispatch `AddAssetQuantity`,
`CreateAccount`, `CreateDomain` and `TransferAsset` to their `execute`;
every other variant falls into the default arm, which returns
`Err("Instruction is not supported yet.")` without touching the world. -/
def Contract.invoke (c : Contract) (wsv : WorldStateView) :
    Option (RResult × WorldStateView) :=
  match c with
  | .AddAssetQuantity i => i.execute wsv
  | .CreateAccount i => i.execute wsv
  | .CreateDomain i => i.execute wsv
  | .TransferAsset i => i.execute wsv
  | _ => some (.err notSupportedMsg, wsv)

/-- The `Relation` enumeration from `src/isi.rs`. -/
inductive Relation where
  | OwnedBy (id : Id)
  | GoingTo (id : Id)
deriving DecidableEq, Repr

/-- The `Property` impl for `Contract` from `src/isi.rs`: `relations`. -/
def Contract.relations : Contract → List Relation
  | .TransferAsset i => [.GoingTo i.destination_account_id, .OwnedBy i.source_account_id]
  | _ => []

/-- The `Assetibility` impl for `Contract` from `src/isi.rs`: `assets`. -/
def Contract.assets : Contract → List Id
  | .TransferAsset i => [i.asset_id]
  | _ => []

/-- Apply an ordered sequence of Contracts, one `invoke` at a time, threading
the World State and collecting the per-instruction results; a panic anywhere
aborts the run. -/
def applyAll : List Contract → WorldStateView → Option (WorldStateView × List RResult)
  | [], wsv => some (wsv, [])
  | c :: cs, wsv =>
    match c.invoke wsv with
    | none => none
    | some (r, wsv') => (applyAll cs wsv').map (fun p => (p.1, r :: p.2))

/-! ## Association-list lemmas -/

theorem assocLookup_cons {α β : Type} [DecidableEq α] (a : α) (b : β)
    (t : List (α × β)) (k : α) :
    assocLookup ((a, b) :: t) k = if a = k then some b else assocLookup t k := rfl

theorem mapAt_cons {α β : Type} [DecidableEq α] (a : α) (b : β) (t : List (α × β))
    (k : α) (f : β → β) :
    assocMapAt ((a, b) :: t) k f =
      (if a = k then (a, f b) else (a, b)) :: assocMapAt t k f := by
  by_cases hak : a = k <;> simp [assocMapAt, hak]

theorem assocLookup_mapAt {α β : Type} [DecidableEq α] (l : List (α × β)) (k : α)
    (f : β → β) (k' : α) :
    assocLookup (assocMapAt l k f) k' =
      if k' = k then (assocLookup l k').map f else assocLookup l k' := by
  induction l with
  | nil =>
    simp only [assocMapAt, List.map_nil, assocLookup]
    split <;> rfl
  | cons p t ih =>
    obtain ⟨a, b⟩ := p
    rw [mapAt_cons]
    by_cases hk'k : k' = k
    · rw [if_pos hk'k]
      subst hk'k
      by_cases hak : a = k'
      · rw [if_pos hak, assocLookup_cons, assocLookup_cons, if_pos hak, if_pos hak]
        rfl
      · rw [if_neg hak, assocLookup_cons, assocLookup_cons, if_neg hak, if_neg hak,
          ih, if_pos rfl]
    · rw [if_neg hk'k]
      by_cases hak : a = k
      · rw [if_pos hak, assocLookup_cons, assocLookup_cons]
        subst hak
        rw [if_neg (fun h => hk'k h.symm), if_neg (fun h => hk'k h.symm), ih, if_neg hk'k]
      · rw [if_neg hak, assocLookup_cons, assocLookup_cons, ih, if_neg hk'k]

theorem assocLookup_append {α β : Type} [DecidableEq α] (l l2 : List (α × β)) (k : α) :
    assocLookup (l ++ l2) k =
      match assocLookup l k with
      | some v => some v
      | none => assocLookup l2 k := by
  induction l with
  | nil => simp [assocLookup]
  | cons p t ih =>
    obtain ⟨a, b⟩ := p
    by_cases hak : a = k
    · simp [assocLookup, if_pos hak]
    · simp [assocLookup, if_neg hak, ih]

theorem assocLookup_insert_self {α β : Type} [DecidableEq α] (l : List (α × β))
    (k : α) (v : β) : assocLookup (assocInsert l k v) k = some v := by
  unfold assocInsert
  cases hl : assocLookup l k with
  | none => simp [hl, assocLookup_append, assocLookup]
  | some w =>
    simp only [hl, Option.isSome_some, if_pos]
    rw [assocLookup_mapAt, if_pos rfl, hl]
    rfl

theorem assocLookup_insert_ne {α β : Type} [DecidableEq α] (l : List (α × β))
    (k : α) (v : β) (k' : α) (h : k' ≠ k) :
    assocLookup (assocInsert l k v) k' = assocLookup l k' := by
  unfold assocInsert
  split
  · rw [assocLookup_mapAt, if_neg h]
  · rw [assocLookup_append]
    cases hl : assocLookup l k' with
    | none =>
      rw [assocLookup_cons, if_neg (fun hh => h hh.symm)]
      rfl
    | some w => rfl

theorem assocLookup_remove_self {α β : Type} [DecidableEq α] (l : List (α × β)) (k : α) :
    assocLookup (assocRemove l k) k = none := by
  induction l with
  | nil => simp [assocRemove, assocLookup]
  | cons p t ih =>
    obtain ⟨a, b⟩ := p
    by_cases hak : a = k
    · simpa [assocRemove, hak] using ih
    · simpa [assocRemove, assocLookup, hak] using ih

theorem remove_cons {α β : Type} [DecidableEq α] (a : α) (b : β) (t : List (α × β))
    (k : α) :
    assocRemove ((a, b) :: t) k =
      if a = k then assocRemove t k else (a, b) :: assocRemove t k := by
  by_cases hak : a = k <;> simp [assocRemove, hak]

theorem assocLookup_remove_ne {α β : Type} [DecidableEq α] (l : List (α × β))
    (k k' : α) (h : k' ≠ k) :
    assocLookup (assocRemove l k) k' = assocLookup l k' := by
  induction l with
  | nil => rfl
  | cons p t ih =>
    obtain ⟨a, b⟩ := p
    rw [remove_cons]
    by_cases hak : a = k
    · rw [if_pos hak, ih, assocLookup_cons]
      subst hak
      rw [if_neg (fun hh => h hh.symm)]
    · rw [if_neg hak, assocLookup_cons, assocLookup_cons, ih]

/-- Number of entries stored under key `k`. -/
def keyCount {α β : Type} [DecidableEq α] (l : List (α × β)) (k : α) : Nat :=
  (l.filter (fun p => p.1 = k)).length

theorem keyCount_of_lookup_none {α β : Type} [DecidableEq α] (l : List (α × β)) (k : α)
    (h : assocLookup l k = none) : keyCount l k = 0 := by
  induction l with
  | nil => simp [keyCount]
  | cons p t ih =>
    obtain ⟨a, b⟩ := p
    by_cases hak : a = k
    · simp [assocLookup, hak] at h
    · simp only [assocLookup, if_neg hak] at h
      simpa [keyCount, List.filter_cons, hak] using ih h

theorem keyCount_remove_self {α β : Type} [DecidableEq α] (l : List (α × β)) (k : α) :
    keyCount (assocRemove l k) k = 0 :=
  keyCount_of_lookup_none _ _ (assocLookup_remove_self l k)

theorem keyCount_insert_of_none {α β : Type} [DecidableEq α] (l : List (α × β))
    (k : α) (v : β) (h : assocLookup l k = none) :
    keyCount (assocInsert l k v) k = 1 := by
  have h0 : keyCount l k = 0 := keyCount_of_lookup_none l k h
  unfold assocInsert
  rw [h]
  simp only [Option.isSome_none, Bool.false_eq_true, if_false]
  unfold keyCount at h0 ⊢
  rw [List.filter_append, List.length_append, h0]
  simp

theorem mapAt_of_not_contains {α β : Type} [DecidableEq α] (l : List (α × β)) (k : α)
    (f : β → β) (h : l.any (fun p => p.1 = k) = false) : assocMapAt l k f = l := by
  induction l with
  | nil => rfl
  | cons p t ih =>
    obtain ⟨a, b⟩ := p
    simp only [List.any_cons, Bool.or_eq_false_iff, decide_eq_false_iff_not] at h
    rw [mapAt_cons, if_neg h.1, ih h.2]

/-- Sum of a measure of the values of an association list. -/
def mSum {α β : Type} (μ : β → Nat) : List (α × β) → Nat
  | [] => 0
  | p :: t => μ p.2 + mSum μ t

theorem mSum_mapAt {α β : Type} [DecidableEq α] (μ : β → Nat) (l : List (α × β))
    (k : α) (f : β → β) (b : β) (hu : keysUnique l = true) (hl : assocLookup l k = some b) :
    mSum μ (assocMapAt l k f) + μ b = mSum μ l + μ (f b) := by
  induction l with
  | nil => simp [assocLookup] at hl
  | cons p t ih =>
    obtain ⟨a, c⟩ := p
    simp only [keysUnique, Bool.and_eq_true, Bool.not_eq_true'] at hu
    obtain ⟨hnc, hut⟩ := hu
    by_cases hak : a = k
    · subst hak
      rw [assocLookup_cons, if_pos rfl] at hl
      injection hl with hcb
      subst hcb
      rw [mapAt_cons, if_pos rfl, mapAt_of_not_contains t a f hnc]
      show μ (f c) + mSum μ t + μ c = μ c + mSum μ t + μ (f c)
      omega
    · rw [assocLookup_cons, if_neg hak] at hl
      rw [mapAt_cons, if_neg hak]
      show μ c + mSum μ (assocMapAt t k f) + μ b = μ c + mSum μ t + μ (f b)
      have := ih hut hl
      omega

theorem any_mapAt {α β : Type} [DecidableEq α] (l : List (α × β)) (k : α) (f : β → β)
    (k' : α) :
    (assocMapAt l k f).any (fun p => p.1 = k') = l.any (fun p => p.1 = k') := by
  induction l with
  | nil => rfl
  | cons p t ih =>
    obtain ⟨a, b⟩ := p
    rw [mapAt_cons]
    by_cases hak : a = k
    · rw [if_pos hak, List.any_cons, List.any_cons, ih]
    · rw [if_neg hak, List.any_cons, List.any_cons, ih]

theorem keysUnique_mapAt {α β : Type} [DecidableEq α] (l : List (α × β)) (k : α)
    (f : β → β) : keysUnique (assocMapAt l k f) = keysUnique l := by
  induction l with
  | nil => rfl
  | cons p t ih =>
    obtain ⟨a, b⟩ := p
    rw [mapAt_cons]
    by_cases hak : a = k
    · rw [if_pos hak]
      show ((!(assocMapAt t k f).any (fun p => p.1 = a)) && keysUnique (assocMapAt t k f)) =
        ((!t.any (fun p => p.1 = a)) && keysUnique t)
      rw [any_mapAt, ih]
    · rw [if_neg hak]
      show ((!(assocMapAt t k f).any (fun p => p.1 = a)) && keysUnique (assocMapAt t k f)) =
        ((!t.any (fun p => p.1 = a)) && keysUnique t)
      rw [any_mapAt, ih]

theorem mem_of_assocLookup {α β : Type} [DecidableEq α] (l : List (α × β)) (k : α)
    (v : β) (h : assocLookup l k = some v) : (k, v) ∈ l := by
  induction l with
  | nil => simp [assocLookup] at h
  | cons p t ih =>
    obtain ⟨a, b⟩ := p
    by_cases hak : a = k
    · subst hak
      rw [assocLookup_cons, if_pos rfl] at h
      injection h with h
      subst h
      exact List.mem_cons_self _ _
    · rw [assocLookup_cons, if_neg hak] at h
      exact List.mem_cons_of_mem _ (ih h)

/-! ## World-level lemmas -/

theorem World.account_updAccount (w : World) (id : Id) (f : Account → Account) (id' : Id) :
    (w.updAccount id f).account id' =
      if id' = id then (w.account id').map f else w.account id' := by
  simp only [World.account, World.updAccount]
  rw [assocLookup_mapAt]
  by_cases hd : id'.domainName = id.domainName
  · rw [if_pos hd]
    cases hld : assocLookup w.domains id'.domainName with
    | none =>
      simp only [Option.map_none', Option.none_bind]
      split <;> simp
    | some d =>
      simp only [Option.map_some', Option.some_bind]
      rw [assocLookup_mapAt]
  · rw [if_neg hd]
    rw [if_neg (fun h : id' = id => hd (by rw [h]))]

/-- 1 when the account holds an entry keyed `g`, else 0. -/
def holdsBit (a : Account) (g : Id) : Nat :=
  if (assocLookup a.assets g).isSome then 1 else 0

/-- Total number of (account, asset) holdings of `g` across the World. -/
def totalHoldings (w : World) (g : Id) : Nat :=
  mSum (fun d => mSum (fun a => holdsBit a g) d.accounts) w.domains

/-- Representation invariant of a World built from Rust `HashMap`s: domain
keys are unique and each domain's account keys are unique. -/
def WFb (w : World) : Bool :=
  keysUnique w.domains && w.domains.all (fun p => keysUnique p.2.accounts)

theorem all_keysUnique_mapAt (ds : List (RStr × Domain)) (dn : RStr) (id : Id)
    (f : Account → Account) :
    (assocMapAt ds dn (fun d => { d with accounts := assocMapAt d.accounts id f })).all
        (fun p => keysUnique p.2.accounts) =
      ds.all (fun p => keysUnique p.2.accounts) := by
  induction ds with
  | nil => rfl
  | cons p t ih =>
    obtain ⟨a, d⟩ := p
    rw [mapAt_cons]
    by_cases had : a = dn
    · rw [if_pos had]
      simp only [List.all_cons, ih, keysUnique_mapAt]
    · rw [if_neg had]
      simp only [List.all_cons, ih]

theorem WFb_updAccount (w : World) (id : Id) (f : Account → Account) :
    WFb (w.updAccount id f) = WFb w := by
  simp only [WFb, World.updAccount]
  rw [keysUnique_mapAt, all_keysUnique_mapAt]

theorem totalHoldings_updAccount (w : World) (id : Id) (f : Account → Account) (g : Id)
    (a : Account) (hwf : WFb w = true) (ha : w.account id = some a) :
    totalHoldings (w.updAccount id f) g + holdsBit a g =
      totalHoldings w g + holdsBit (f a) g := by
  rw [WFb, Bool.and_eq_true] at hwf
  obtain ⟨hu1, hall⟩ := hwf
  simp only [World.account] at ha
  cases hld : assocLookup w.domains id.domainName with
  | none =>
    rw [hld] at ha
    simp at ha
  | some d =>
    rw [hld] at ha
    simp only [Option.some_bind] at ha
    have hmem := mem_of_assocLookup _ _ _ hld
    have hu2 : keysUnique d.accounts = true := by
      rw [List.all_eq_true] at hall
      simpa using hall _ hmem
    have hD0 := mSum_mapAt (α := RStr) (β := Domain)
      (fun d => mSum (fun a => holdsBit a g) d.accounts) w.domains
      id.domainName (fun d => { d with accounts := assocMapAt d.accounts id f }) d hu1 hld
    have hD' : totalHoldings (w.updAccount id f) g +
        mSum (fun a => holdsBit a g) d.accounts =
        totalHoldings w g + mSum (fun a => holdsBit a g) (assocMapAt d.accounts id f) := hD0
    have hA0 := mSum_mapAt (α := Id) (β := Account)
      (fun a => holdsBit a g) d.accounts id f a hu2 ha
    have hA' : mSum (fun a => holdsBit a g) (assocMapAt d.accounts id f) + holdsBit a g =
        mSum (fun a => holdsBit a g) d.accounts + holdsBit (f a) g := hA0
    omega

/-! ## Concrete sample data for witnesses and counterexamples -/

def gId : Id := ⟨[1], [0]⟩

def aId : Id := ⟨[2], [0]⟩

def bId : Id := ⟨[3], [0]⟩

def accSampleA : Account := ⟨aId, [(gId, Asset.new gId)]⟩

def accSampleB : Account := ⟨bId, []⟩

def dom0 : Domain := ⟨[0], [(aId, accSampleA), (bId, accSampleB)]⟩

def w0 : World := ⟨[([0], dom0)]⟩

def wsv0 : WorldStateView := ⟨w0⟩

def c1aaqSample : AddAssetQuantity := ⟨gId, aId, 20002⟩

def c1caSample : CreateAsset := ⟨[5], [0], 2⟩

def c1taSample : TransferAsset := ⟨aId, bId, gId, [9], 2002⟩

def c1ctSample : Contract := .TransferAsset ⟨aId, bId, gId, [9], 2002⟩

/-! ## The claims -/

/-- C1: for every value of the Instruction payload types `AddAssetQuantity`,
`CreateAsset`, `TransferAsset` and of the `Contract` union, decoding the
bytes produced by encoding the value yields a value equal to it, field for
field (encoding succeeds exactly when no collection exceeds the codec's
`u32::MAX` length bound; `wf` says the numeric fields fit their machine
types, which Rust's types enforce). -/
theorem c1_codec_roundtrip :
    (∀ (x : AddAssetQuantity) (bs : List Nat), x.wf → x.toBytes = some bs →
      AddAssetQuantity.fromBytes bs = some x) ∧
    (∀ (x : CreateAsset) (bs : List Nat), x.wf → x.toBytes = some bs →
      CreateAsset.fromBytes bs = some x) ∧
    (∀ (x : TransferAsset) (bs : List Nat), x.wf → x.toBytes = some bs →
      TransferAsset.fromBytes bs = some x) ∧
    (∀ (c : Contract) (bs : List Nat), c.wf → c.toBytes = some bs →
      Contract.fromBytes bs = some c) := by
  refine ⟨?_, ?_, ?_, ?_⟩ <;> intro x bs hwf h
  · have hd := AddAssetQuantity.decode_encode_AddAssetQuantity x bs [] hwf h
    rw [List.append_nil] at hd
    rw [AddAssetQuantity.fromBytes, hd]
    rfl
  · have hd := CreateAsset.decode_encode_CreateAsset x bs [] hwf h
    rw [List.append_nil] at hd
    rw [CreateAsset.fromBytes, hd]
    rfl
  · have hd := TransferAsset.decode_encode_TransferAsset x bs [] hwf h
    rw [List.append_nil] at hd
    rw [TransferAsset.fromBytes, hd]
    rfl
  · have hd := Contract.decode_encode_Contract x bs [] hwf h
    rw [List.append_nil] at hd
    rw [Contract.fromBytes, hd]
    rfl

/-- Witness for C1 at concrete payloads (the doc-test values of
`src/asset.rs`). -/
theorem c1_codec_roundtrip_witness :
    AddAssetQuantity.fromBytes ((c1aaqSample.toBytes).getD []) = some c1aaqSample ∧
    CreateAsset.fromBytes ((c1caSample.toBytes).getD []) = some c1caSample ∧
    TransferAsset.fromBytes ((c1taSample.toBytes).getD []) = some c1taSample ∧
    Contract.fromBytes ((c1ctSample.toBytes).getD []) = some c1ctSample :=
  ⟨c1_codec_roundtrip.1 c1aaqSample _ (by norm_num : (20002 : Nat) < 2 ^ 128) (by decide),
   c1_codec_roundtrip.2.1 c1caSample _ (by norm_num : (2 : Nat) < 2 ^ 8) (by decide),
   c1_codec_roundtrip.2.2.1 c1taSample _ (by norm_num : (2002 : Nat) < 2 ^ 128) (by decide),
   c1_codec_roundtrip.2.2.2 c1ctSample _ (by norm_num : (2002 : Nat) < 2 ^ 128) (by decide)⟩

/-- C2: if account `A` holds asset `g`, account `B` exists and does not hold
`g`, then `TransferAsset(A, B, g, amt, desc)` returns `Ok`, leaves `A` no
longer holding `g`, leaves `B` holding exactly one entry keyed `g`, and
keeps the total number of (account, asset) holdings of `g` across the World
unchanged. -/
theorem c2_transfer_moves (w : World) (A B g : Id) (amt : Nat) (desc : RStr)
    (accA accB : Account)
    (hwf : WFb w = true)
    (hA : w.account A = some accA) (hAg : (assocLookup accA.assets g).isSome = true)
    (hB : w.account B = some accB) (hBg : assocLookup accB.assets g = none) :
    ∃ (w' : World) (accA' accB' : Account),
      TransferAsset.execute ⟨A, B, g, desc, amt⟩ ⟨w⟩ = some (.ok, ⟨w'⟩) ∧
      w'.account A = some accA' ∧ assocLookup accA'.assets g = none ∧
      w'.account B = some accB' ∧ keyCount accB'.assets g = 1 ∧
      totalHoldings w' g = totalHoldings w g := by
  obtain ⟨asset, hAsset⟩ := Option.isSome_iff_exists.mp hAg
  have hAB : A ≠ B := by
    intro hEq
    subst hEq
    rw [hA] at hB
    injection hB with hacc
    subst hacc
    rw [hAsset] at hBg
    cases hBg
  have hBAf : (B = A) = False := eq_false (fun h => hAB h.symm)
  refine ⟨(w.updAccount A (fun a => { a with assets := assocRemove a.assets g })).updAccount B
      (fun a => { a with assets := assocInsert a.assets g asset }),
    { accA with assets := assocRemove accA.assets g },
    { accB with assets := assocInsert accB.assets g asset }, ?_, ?_, ?_, ?_, ?_, ?_⟩
  · simp only [TransferAsset.execute, hA, hAsset, World.account_updAccount, hBAf, if_false, hB]
  · rw [World.account_updAccount, if_neg hAB, World.account_updAccount, if_pos rfl, hA]
    rfl
  · exact assocLookup_remove_self _ _
  · rw [World.account_updAccount, if_pos rfl, World.account_updAccount,
      if_neg (fun h => hAB h.symm), hB]
    rfl
  · exact keyCount_insert_of_none _ _ _ hBg
  · have hwf1 : WFb (w.updAccount A (fun a => { a with assets := assocRemove a.assets g })) =
        true := by rw [WFb_updAccount]; exact hwf
    have hw1B : (w.updAccount A (fun a => { a with assets := assocRemove a.assets g })).account
        B = some accB := by
      rw [World.account_updAccount, if_neg (fun h => hAB h.symm)]
      exact hB
    have t1' : totalHoldings (w.updAccount A
          (fun a => { a with assets := assocRemove a.assets g })) g + holdsBit accA g =
        totalHoldings w g + holdsBit { accA with assets := assocRemove accA.assets g } g :=
      totalHoldings_updAccount w A _ g accA hwf hA
    have t2' : totalHoldings ((w.updAccount A
          (fun a => { a with assets := assocRemove a.assets g })).updAccount B
          (fun a => { a with assets := assocInsert a.assets g asset })) g + holdsBit accB g =
        totalHoldings (w.updAccount A
          (fun a => { a with assets := assocRemove a.assets g })) g +
          holdsBit { accB with assets := assocInsert accB.assets g asset } g :=
      totalHoldings_updAccount _ B _ g accB hwf1 hw1B
    have b1 : holdsBit accA g = 1 := by
      rw [holdsBit, hAsset]
      rfl
    have b2 : holdsBit { accA with assets := assocRemove accA.assets g } g = 0 := by
      rw [holdsBit]
      have : assocLookup (assocRemove accA.assets g) g = none := assocLookup_remove_self _ _
      rw [show ({ accA with assets := assocRemove accA.assets g } : Account).assets =
        assocRemove accA.assets g from rfl, this]
      rfl
    have b3 : holdsBit accB g = 0 := by
      rw [holdsBit, hBg]
      rfl
    have b4 : holdsBit { accB with assets := assocInsert accB.assets g asset } g = 1 := by
      rw [holdsBit]
      rw [show ({ accB with assets := assocInsert accB.assets g asset } : Account).assets =
        assocInsert accB.assets g asset from rfl, assocLookup_insert_self]
      rfl
    omega

/-- Witness for C2 on a concrete two-account world. -/
theorem c2_transfer_moves_witness :
    ∃ (w' : World) (accA' accB' : Account),
      TransferAsset.execute ⟨aId, bId, gId, [9], 5⟩ ⟨w0⟩ = some (.ok, ⟨w'⟩) ∧
      w'.account aId = some accA' ∧ assocLookup accA'.assets gId = none ∧
      w'.account bId = some accB' ∧ keyCount accB'.assets gId = 1 ∧
      totalHoldings w' gId = totalHoldings w0 gId :=
  c2_transfer_moves w0 aId bId gId 5 [9] accSampleA accSampleB
    (by decide) (by decide) (by decide) (by decide) (by decide)

/-- C3 fails on the code: when the source account does not exist,
`TransferAsset::execute` unwraps the lookup and panics (modelled: returns
`none`), so no `EntityNotFound` error value is ever returned to the
caller. -/
theorem c3_counterexample :
    TransferAsset.execute ⟨⟨[7], [0]⟩, ⟨[2], [0]⟩, ⟨[1], [0]⟩, [], 1⟩ wsv0 = none := by
  decide

/-- C3 amended: when the source account of a `TransferAsset` does not exist,
execution panics (modelled: returns `none`, no `Result` value at all) before
performing any mutation, instead of returning `EntityNotFound`. -/
theorem c3_missing_source_panics (wsv : WorldStateView) (t : TransferAsset)
    (h : wsv.world.account t.source_account_id = none) :
    t.execute wsv = none := by
  simp only [TransferAsset.execute, h]

/-- Witness for the amended C3 on a concrete world missing the source. -/
theorem c3_missing_source_panics_witness :
    TransferAsset.execute ⟨⟨[7], [0]⟩, ⟨[2], [0]⟩, ⟨[1], [0]⟩, [], 2⟩ wsv0 = none :=
  c3_missing_source_panics wsv0 ⟨⟨[7], [0]⟩, ⟨[2], [0]⟩, ⟨[1], [0]⟩, [], 2⟩ (by decide)

/-- C4 fails on the code in its failure clause: when the account is absent,
`AddAssetQuantity::execute` unwraps the lookup and panics (modelled: returns
`none`), so no `EntityNotFound` error value is returned. -/
theorem c4_counterexample :
    AddAssetQuantity.execute ⟨⟨[1], [0]⟩, ⟨[7], [0]⟩, 1⟩ wsv0 = none := by
  decide

/-- C4 amended: when `account_id` resolves to an existing Account,
`AddAssetQuantity::execute` succeeds, inserts or overwrites an `Asset` entry
keyed by `asset_id` in that account's asset mapping, touches no other
account, and its result does not depend on `amount`; when the account is
absent it panics (modelled: returns `none`) instead of returning
`EntityNotFound`. -/
theorem c4_add_asset_quantity (wsv : WorldStateView) (i : AddAssetQuantity) :
    (∀ acct, wsv.world.account i.account_id = some acct →
      ∃ wsv', i.execute wsv = some (.ok, wsv') ∧
        (∃ acct', wsv'.world.account i.account_id = some acct' ∧
          assocLookup acct'.assets i.asset_id = some (Asset.new i.asset_id)) ∧
        (∀ id', id' ≠ i.account_id → wsv'.world.account id' = wsv.world.account id') ∧
        (∀ amt, AddAssetQuantity.execute ⟨i.asset_id, i.account_id, amt⟩ wsv =
          i.execute wsv)) ∧
    (wsv.world.account i.account_id = none → i.execute wsv = none) := by
  constructor
  · intro acct hacct
    refine ⟨⟨wsv.world.updAccount i.account_id (fun a =>
      { a with assets := assocInsert a.assets i.asset_id (Asset.new i.asset_id) })⟩,
      ?_, ⟨{ acct with assets := assocInsert acct.assets i.asset_id (Asset.new i.asset_id) },
        ?_, ?_⟩, ?_, ?_⟩
    · simp only [AddAssetQuantity.execute, hacct]
    · rw [show (⟨wsv.world.updAccount i.account_id (fun a =>
        { a with assets := assocInsert a.assets i.asset_id (Asset.new i.asset_id) })⟩ :
          WorldStateView).world = wsv.world.updAccount i.account_id (fun a =>
        { a with assets := assocInsert a.assets i.asset_id (Asset.new i.asset_id) }) from rfl,
        World.account_updAccount, if_pos rfl, hacct]
      rfl
    · exact assocLookup_insert_self _ _ _
    · intro id' hne
      rw [show (⟨wsv.world.updAccount i.account_id (fun a =>
        { a with assets := assocInsert a.assets i.asset_id (Asset.new i.asset_id) })⟩ :
          WorldStateView).world = wsv.world.updAccount i.account_id (fun a =>
        { a with assets := assocInsert a.assets i.asset_id (Asset.new i.asset_id) }) from rfl,
        World.account_updAccount, if_neg hne]
    · intro amt
      rfl
  · intro h
    simp only [AddAssetQuantity.execute, h]

/-- Witness for the amended C4: the success prong on the concrete world
(`amount 20002`, as in the doc test) and the panic prong on a missing
account. -/
theorem c4_add_asset_quantity_witness :
    (∃ wsv', AddAssetQuantity.execute ⟨⟨[4], [0]⟩, aId, 20002⟩ wsv0 = some (.ok, wsv') ∧
      (∃ acct', wsv'.world.account aId = some acct' ∧
        assocLookup acct'.assets ⟨[4], [0]⟩ = some (Asset.new ⟨[4], [0]⟩)) ∧
      (∀ id', id' ≠ aId → wsv'.world.account id' = wsv0.world.account id') ∧
      (∀ amt, AddAssetQuantity.execute ⟨⟨[4], [0]⟩, aId, amt⟩ wsv0 =
        AddAssetQuantity.execute ⟨⟨[4], [0]⟩, aId, 20002⟩ wsv0)) ∧
    AddAssetQuantity.execute ⟨⟨[1], [0]⟩, ⟨[8], [0]⟩, 3⟩ wsv0 = none :=
  ⟨(c4_add_asset_quantity wsv0 ⟨⟨[4], [0]⟩, aId, 20002⟩).1 accSampleA (by decide),
   (c4_add_asset_quantity wsv0 ⟨⟨[1], [0]⟩, ⟨[8], [0]⟩, 3⟩).2 (by decide)⟩

/-- Selector for the `Contract` variants that fall into `invoke`'s default
arm in `src/isi.rs`. -/
def Contract.isUnimplemented : Contract → Bool
  | .AddSignatory _ => true
  | .AppendRole _ => true
  | .CreateRole _ => true
  | .CreateAsset _ => true
  | .AddPeer _ => true
  | _ => false

/-- Occurrence of `pat` as a leading run of `l`. -/
def listStarts : List Nat → List Nat → Bool
  | [], _ => true
  | _ :: _, [] => false
  | p :: ps, x :: xs => (p == x) && listStarts ps xs

/-- Occurrence of `pat` as a contiguous run anywhere in `l`. -/
def hasSub (l pat : List Nat) : Bool :=
  match l with
  | [] => listStarts pat []
  | _ :: t => listStarts pat l || hasSub t pat

/-- C5 fails on the code in its naming clause: the default arm of
`Contract::invoke` returns the fixed message
`"Instruction is not supported yet."`, which does not carry the variant's
name (shown here for `AddSignatory`). -/
theorem c5_counterexample :
    Contract.invoke (.AddSignatory ⟨⟨[2], [0]⟩⟩) wsv0 = some (.err notSupportedMsg, wsv0) ∧
    hasSub notSupportedMsg (rstr "AddSignatory") = false := by
  constructor
  · rfl
  · decide

/-- C5 amended: for every variant without implemented execution semantics
(`AddSignatory`, `AppendRole`, `CreateRole`, `CreateAsset`, `AddPeer`) and
every world state, `invoke` returns `Err("Instruction is not supported
yet.")` — a fixed message that does not carry the variant's name — never
`Ok`, and the world state is unchanged. -/
theorem c5_unimplemented_err (wsv : WorldStateView) (c : Contract)
    (h : c.isUnimplemented = true) :
    c.invoke wsv = some (.err notSupportedMsg, wsv) := by
  cases c <;> simp_all [Contract.isUnimplemented, Contract.invoke]

/-- Witness for the amended C5 at a concrete unimplemented variant. -/
theorem c5_unimplemented_err_witness :
    Contract.invoke (.AddPeer ⟨[8]⟩) wsv0 = some (.err notSupportedMsg, wsv0) :=
  c5_unimplemented_err wsv0 (.AddPeer ⟨[8]⟩) (by decide)

/-- C6 fails on the code: `CreateAsset` has no `Instruction` impl in
`src/asset.rs` and falls into `invoke`'s default arm, so it returns the
not-supported error and registers nothing. -/
theorem c6_counterexample :
    Contract.invoke (.CreateAsset ⟨[5], [0], 0⟩) wsv0 = some (.err notSupportedMsg, wsv0) := by
  rfl

/-- C6 amended: invoking `Contract::CreateAsset` never succeeds: for every
world state it returns `Err("Instruction is not supported yet.")` and leaves
the world unchanged (no asset definition is registered). -/
theorem c6_create_asset_unimplemented (wsv : WorldStateView) (p : CreateAsset) :
    Contract.invoke (.CreateAsset p) wsv = some (.err notSupportedMsg, wsv) := rfl

/-- Selector for the `TransferAsset` variant of `Contract`. -/
def Contract.isTransfer : Contract → Bool
  | .TransferAsset _ => true
  | _ => false

/-- C7: `relations` and `assets` are pure projections of the `Contract`
value alone (in this embedding they take only the `Contract`, so they can
neither read nor mutate World State); for `TransferAsset` they return
exactly `[GoingTo destination, OwnedBy source]` and `[asset_id]`, and for
every other variant both return the empty sequence. -/
theorem c7_projections :
    (∀ t : TransferAsset,
      Contract.relations (.TransferAsset t) =
        [.GoingTo t.destination_account_id, .OwnedBy t.source_account_id] ∧
      Contract.assets (.TransferAsset t) = [t.asset_id]) ∧
    (∀ c : Contract, c.isTransfer = false → c.relations = [] ∧ c.assets = []) := by
  constructor
  · intro t
    exact ⟨rfl, rfl⟩
  · intro c h
    cases c <;> simp_all [Contract.isTransfer, Contract.relations, Contract.assets]

/-- Witness for C7 at a concrete transfer and a concrete other variant. -/
theorem c7_projections_witness :
    (Contract.relations (.TransferAsset c1taSample) =
        [.GoingTo c1taSample.destination_account_id, .OwnedBy c1taSample.source_account_id] ∧
      Contract.assets (.TransferAsset c1taSample) = [c1taSample.asset_id]) ∧
    (Contract.relations (.CreateDomain ⟨[6]⟩) = [] ∧
      Contract.assets (.CreateDomain ⟨[6]⟩) = []) :=
  ⟨c7_projections.1 c1taSample, c7_projections.2 (.CreateDomain ⟨[6]⟩) (by decide)⟩

/-- C8: applying the same ordered sequence of Contracts (one `invoke` at a
time) to two initially-equal World States yields equal resulting World
States and equal per-instruction results; in this embedding `invoke` is a
pure function of the Contract and the state (the Rust code reads no clock,
randomness or I/O), so the run is determined by its inputs. -/
theorem c8_determinism (cs : List Contract) (wsv1 wsv2 : WorldStateView)
    (h : wsv1 = wsv2) : applyAll cs wsv1 = applyAll cs wsv2 := by
  rw [h]

/-- Witness for C8 on a concrete sequence and world. -/
theorem c8_determinism_witness :
    applyAll [.AddAssetQuantity ⟨⟨[4], [0]⟩, ⟨[2], [0]⟩, 1⟩, .AddPeer ⟨[8]⟩] wsv0 =
      applyAll [.AddAssetQuantity ⟨⟨[4], [0]⟩, ⟨[2], [0]⟩, 1⟩, .AddPeer ⟨[8]⟩] wsv0 :=
  c8_determinism [.AddAssetQuantity ⟨⟨[4], [0]⟩, ⟨[2], [0]⟩, 1⟩, .AddPeer ⟨[8]⟩] wsv0 wsv0 rfl

/-- C9 fails on the code: the `From<Vec<u8>>` impls call
`decode(..).expect(..)`, which panics on malformed bytes (modelled: returns
`none`), so no typed `DecodeError` is returned to the caller (shown on the
malformed inputs `[9]` — an invalid `Contract` tag — and the empty input). -/
theorem c9_counterexample :
    Contract.fromBytes [9] = none ∧ AddAssetQuantity.fromBytes [] = none ∧
    CreateAsset.fromBytes [] = none ∧ TransferAsset.fromBytes [] = none := by
  refine ⟨?_, ?_, ?_, ?_⟩ <;> decide

/-- C9 amended: for every byte sequence that is not a valid encoding of the
target type, the `From<Vec<u8>>` conversion panics (`expect`, modelled:
returns `none`) and produces no value at all — in particular no partial
object — instead of returning a typed `DecodeError`. -/
theorem c9_malformed_decode_panics :
    (∀ bs : List Nat, Contract.decodeBytes bs = none → Contract.fromBytes bs = none) ∧
    (∀ bs : List Nat, AddAssetQuantity.decodeBytes bs = none →
      AddAssetQuantity.fromBytes bs = none) ∧
    (∀ bs : List Nat, CreateAsset.decodeBytes bs = none →
      CreateAsset.fromBytes bs = none) ∧
    (∀ bs : List Nat, TransferAsset.decodeBytes bs = none →
      TransferAsset.fromBytes bs = none) := by
  refine ⟨?_, ?_, ?_, ?_⟩ <;> intro bs h <;>
    simp [Contract.fromBytes, AddAssetQuantity.fromBytes, CreateAsset.fromBytes,
      TransferAsset.fromBytes, h]

/-- Witness for the amended C9 at concrete malformed inputs. -/
theorem c9_malformed_decode_panics_witness :
    Contract.fromBytes [10] = none ∧ AddAssetQuantity.fromBytes [255] = none ∧
    CreateAsset.fromBytes [255] = none ∧ TransferAsset.fromBytes [255] = none :=
  ⟨c9_malformed_decode_panics.1 [10] (by decide),
   c9_malformed_decode_panics.2.1 [255] (by decide),
   c9_malformed_decode_panics.2.2.1 [255] (by decide),
   c9_malformed_decode_panics.2.2.2 [255] (by decide)⟩

/-- C10: a self-transfer of a held asset (`source = destination = A`,
`A` holds `g`) returns `Ok`, and afterwards `A` holds exactly one entry
keyed `g` — the removal happens before the destination insert on the same
account, so the holding is neither dropped nor duplicated. -/
theorem c10_self_transfer (w : World) (A g : Id) (amt : Nat) (desc : RStr)
    (acc : Account)
    (hA : w.account A = some acc) (hAg : (assocLookup acc.assets g).isSome = true) :
    ∃ (w' : World) (acc' : Account),
      TransferAsset.execute ⟨A, A, g, desc, amt⟩ ⟨w⟩ = some (.ok, ⟨w'⟩) ∧
      w'.account A = some acc' ∧ keyCount acc'.assets g = 1 := by
  obtain ⟨asset, hAsset⟩ := Option.isSome_iff_exists.mp hAg
  refine ⟨(w.updAccount A (fun a => { a with assets := assocRemove a.assets g })).updAccount A
      (fun a => { a with assets := assocInsert a.assets g asset }),
    { acc with assets := assocInsert (assocRemove acc.assets g) g asset }, ?_, ?_, ?_⟩
  · simp only [TransferAsset.execute, hA, hAsset, World.account_updAccount,
      eq_self_iff_true, if_true, Option.map_some']
  · rw [World.account_updAccount, if_pos rfl, World.account_updAccount, if_pos rfl, hA]
    rfl
  · exact keyCount_insert_of_none _ _ _ (assocLookup_remove_self _ _)

/-- Witness for C10 on the concrete world where `A` holds `g`. -/
theorem c10_self_transfer_witness :
    ∃ (w' : World) (acc' : Account),
      TransferAsset.execute ⟨aId, aId, gId, [], 6⟩ ⟨w0⟩ = some (.ok, ⟨w'⟩) ∧
      w'.account aId = some acc' ∧ keyCount acc'.assets gId = 1 :=
  c10_self_transfer w0 aId gId 6 [] accSampleA (by decide) (by decide)

end Iroha
